import Mathlib

/-!
Verification of the agent-based Filecoin economic simulation
(`agentfil/filecoin_model.py`) against its natural-language specification.

The daily economic update of `FilecoinModel` is embedded shallowly: float
arithmetic is idealized as exact rational (`ℚ`) arithmetic, the date-indexed
pandas columns become `List ℚ` indexed by day offset, and collaborator
functions living in modules outside the embedded core (`locking.py`,
`sp_agent.py`) are abstracted as explicit numeric inputs or function
parameters, as the spec itself treats them ("pluggable", "supplied by a
collaborator").
-/

namespace AgentFil

/-! ### Constants (`agentfil/constants.py`) -/

/-- Constant `GIB = 2 ** 30`. -/
def GIB : ℚ := 2 ^ 30

/-- Constant `SECTOR_SIZE = 32 * GIB`. -/
def SECTOR_SIZE : ℚ := 32 * GIB

/-- Constant `MIN_VALUE = 1e-6`, the strictly positive floor used for division
protection. -/
def MIN_VALUE : ℚ := 1 / 1000000

/-! ### Reward vesting (`FilecoinModel._update_agents`, lines 966-972)

```
agent_accounting_df.loc[accounting_df_idx, 'reward_FIL'] += agent_reward * 0.25
agent_accounting_df.loc[accounting_df_idx+1:accounting_df_idx+180, 'reward_FIL'] += (agent_reward * 0.75)/180
```

A pandas `.loc[a:b]` label slice is inclusive at both ends, and labels beyond
the end of the frame are silently dropped, so the installment block covers the
180 rows `d+1 … d+180` intersected with the ledger.  `vestAdd d i R x` is the
new value of row `i` of the `reward_FIL` column when its old value is `x` and
reward `R` is credited on day `d`. -/

def vestAdd (d i : ℕ) (R x : ℚ) : ℚ :=
  if i = d then x + R * (1/4)
  else if d + 1 ≤ i ∧ i ≤ d + 180 then x + R * (3/4) / 180
  else x

/-- Apply `vestAdd d · R` to a suffix of the `reward_FIL` column whose first
row has absolute index `i`. -/
def vestFrom (d : ℕ) (R : ℚ) : ℕ → List ℚ → List ℚ
  | _, [] => []
  | i, x :: xs => vestAdd d i R x :: vestFrom d R (i + 1) xs

/-- The `reward_FIL` column after `FilecoinModel._update_agents` credits
reward `R` to this agent on day `d`. -/
def updateAgentRewards (d : ℕ) (R : ℚ) (L : List ℚ) : List ℚ :=
  vestFrom d R 0 L

/-- Follows the spec's words, for refinement comparison (§8: vesting
installments "truncated by horizon … must be flagged, not silently passed"):
the same update, but returning `none` as the flag whenever the last
installment day `d + 180` falls outside the ledger. -/
def updateAgentRewardsSpec (d : ℕ) (R : ℚ) (L : List ℚ) : Option (List ℚ) :=
  if d + 180 < L.length then some (updateAgentRewards d R L) else none

theorem vestFrom_length (d : ℕ) (R : ℚ) :
    ∀ (i : ℕ) (L : List ℚ), (vestFrom d R i L).length = L.length := by
  intro i L
  induction L generalizing i with
  | nil => rfl
  | cons x xs ih => simp [vestFrom, ih]

theorem vestFrom_getD (d : ℕ) (R : ℚ) :
    ∀ (i j : ℕ) (L : List ℚ), j < L.length →
      (vestFrom d R i L).getD j 0 = vestAdd d (i + j) R (L.getD j 0) := by
  intro i j L
  induction L generalizing i j with
  | nil => intro h; simp at h
  | cons x xs ih =>
    intro h
    cases j with
    | zero => simp [vestFrom]
    | succ j =>
      simp only [vestFrom, List.getD_cons_succ]
      rw [ih (i + 1) j (by simpa using Nat.lt_of_succ_lt_succ h)]
      ring_nf

theorem vestFrom_take (d : ℕ) (R : ℚ) :
    ∀ (i n : ℕ) (L : List ℚ),
      vestFrom d R i (L.take n) = (vestFrom d R i L).take n := by
  intro i n L
  induction L generalizing i n with
  | nil => simp [vestFrom]
  | cons x xs ih =>
    cases n with
    | zero => simp [vestFrom]
    | succ n => simp [vestFrom, ih]

theorem updateAgentRewards_length (d : ℕ) (R : ℚ) (L : List ℚ) :
    (updateAgentRewards d R L).length = L.length :=
  vestFrom_length d R 0 L

/-! ### Bootstrap reward zeroing (`FilecoinModel.__init__`, lines 192-194, and
`FilecoinModel._zero_agent_rewards`, lines 978-981)

Construction runs `_fast_forward_to_simulation_start` (which replays
`_update_agents`, crediting bootstrap rewards) and then
`_zero_agent_rewards`, which executes
`agent.accounting_df['reward_FIL'] = 0.0` over the whole column. -/

/-- Column reset `FilecoinModel._zero_agent_rewards` on one agent's `reward_FIL` column. -/
def zeroAgentRewards (L : List ℚ) : List ℚ :=
  L.map fun _ => 0

/-- The `reward_FIL` column at the end of `FilecoinModel.__init__`: the
bootstrap phase applies `_update_agents` for each historical day (a list of
`(day, reward)` credits folded over the column), after which
`_zero_agent_rewards` runs. -/
def constructedAgentRewards (init : List ℚ) (credits : List (ℕ × ℚ)) : List ℚ :=
  zeroAgentRewards (credits.foldl (fun L c => updateAgentRewards c.1 c.2 L) init)

theorem foldl_updateAgentRewards_length (credits : List (ℕ × ℚ)) :
    ∀ init : List ℚ,
      (credits.foldl (fun L c => updateAgentRewards c.1 c.2 L) init).length =
        init.length := by
  induction credits with
  | nil => intro init; rfl
  | cons c cs ih =>
    intro init
    simp only [List.foldl_cons]
    rw [ih, updateAgentRewards_length]

/-- Claim C1 (amended): crediting reward `R` on day `d` adds exactly
`0.25 R` to `reward_FIL` at row `d` and `0.75 R / 180` at each of the rows
`d+1 … d+180` that exist, leaving all other rows unchanged; installments past
the ledger horizon are silently truncated — updating a horizon-truncated
ledger gives exactly the truncation of the untruncated update, with no flag
raised. -/
theorem vesting_split_with_silent_truncation (d : ℕ) (R : ℚ) (L : List ℚ)
    (i n : ℕ) (h : i < L.length) :
    (updateAgentRewards d R L).length = L.length ∧
    (updateAgentRewards d R L).getD i 0 =
      L.getD i 0 + (if i = d then R * (1/4)
        else if d + 1 ≤ i ∧ i ≤ d + 180 then R * (3/4) / 180 else 0) ∧
    updateAgentRewards d R (L.take n) = (updateAgentRewards d R L).take n := by
  refine ⟨updateAgentRewards_length d R L, ?_, vestFrom_take d R 0 n L⟩
  rw [updateAgentRewards, vestFrom_getD d R 0 i L h]
  simp only [Nat.zero_add, vestAdd]
  split_ifs <;> ring

theorem vesting_split_with_silent_truncation_witness :
    1 < ([0, 0, 0] : List ℚ).length ∧
    ((updateAgentRewards 0 180 [0, 0, 0]).length = ([0, 0, 0] : List ℚ).length ∧
     (updateAgentRewards 0 180 [0, 0, 0]).getD 1 0 =
       ([0, 0, 0] : List ℚ).getD 1 0 + (if 1 = 0 then (180 : ℚ) * (1/4)
         else if 0 + 1 ≤ 1 ∧ 1 ≤ 0 + 180 then 180 * (3/4) / 180 else 0) ∧
     updateAgentRewards 0 180 (([0, 0, 0] : List ℚ).take 2) =
       (updateAgentRewards 0 180 [0, 0, 0]).take 2) :=
  ⟨by norm_num,
   vesting_split_with_silent_truncation 0 180 [0, 0, 0] 1 2 (by norm_num)⟩

/-- Claim C1, counterexample to the flagging clause: on a two-row ledger,
crediting reward `180` on day `0` truncates the installments of days
`2 … 180`, yet the source update just returns the ordinary truncated ledger
`[45, 3/4]` — identical to the horizon-restriction of an untruncated run —
while the spec-worded flagged variant returns `none`; the truncation is
silently passed, not flagged. -/
theorem vesting_truncation_not_flagged :
    updateAgentRewardsSpec 0 180 [0, 0] = none ∧
    updateAgentRewards 0 180 [0, 0] =
      (updateAgentRewards 0 180 [0, 0, 0]).take 2 ∧
    updateAgentRewards 0 180 [0, 0] = [45, 3/4] := by
  refine ⟨by norm_num [updateAgentRewardsSpec], ?_, ?_⟩ <;>
    norm_num [updateAgentRewards, vestFrom, vestAdd]

/-- Claim C10: after model construction (bootstrap fast-forward followed by
`_zero_agent_rewards`), every entry of every agent's `reward_FIL` column is
`0`, whatever rewards the bootstrap replay credited, and the column still
covers every date of the ledger. -/
theorem constructed_rewards_all_zero (init : List ℚ) (credits : List (ℕ × ℚ))
    (x : ℚ) (hx : x ∈ constructedAgentRewards init credits) :
    x = 0 ∧ (constructedAgentRewards init credits).length = init.length := by
  constructor
  · rcases List.mem_map.mp hx with ⟨a, _, rfl⟩
    rfl
  · rw [constructedAgentRewards, zeroAgentRewards, List.length_map,
      foldl_updateAgentRewards_length]

theorem constructed_rewards_all_zero_witness :
    (0 : ℚ) ∈ constructedAgentRewards [1, 2] [(0, 4)] ∧
    ((0 : ℚ) = 0 ∧
     (constructedAgentRewards [1, 2] [(0, 4)]).length =
       ([1, 2] : List ℚ).length) :=
  ⟨by simp [constructedAgentRewards, zeroAgentRewards, updateAgentRewards,
      vestFrom],
   constructed_rewards_all_zero [1, 2] [(0, 4)] 0
     (by simp [constructedAgentRewards, zeroAgentRewards, updateAgentRewards,
        vestFrom])⟩

/-! ### Renewal ratio and aggregate renewal rate
(`FilecoinModel._update_sched_expire_pledge`, lines 724, 765-777, 801, and the
identical recomputation in `_update_circulating_supply`, lines 836-842)

```
if agent_day_se_qap == 0 and agent_day_renewed_qap > 0:
    agent_rr = 1.0
elif agent_day_se_qap < 0 or agent_day_renewed_qap == 0:
    agent_rr = 0.0
else:
    agent_rr = agent_day_renewed_qap / agent_day_se_qap
agent_rr = np.clip(agent_rr, 0, 1)
aggregate_rr *= agent_rr
```
-/

/-- Clamp `np.clip(x, 0, 1)` (maximum with the floor, then minimum with the cap). -/
def clip01 (x : ℚ) : ℚ :=
  min (max x 0) 1

/-- One agent's realized renewal ratio for a day, from that day's renewed and
scheduled-to-expire quality-adjusted power. -/
def agentRR (renewedQap seQap : ℚ) : ℚ :=
  clip01 (if seQap = 0 ∧ 0 < renewedQap then 1
    else if seQap < 0 ∨ renewedQap = 0 then 0
    else renewedQap / seQap)

/-- The day's `renewal_rate` entry: `aggregate_rr` starts at `1.0` and is
multiplied by each agent's individual ratio; each agent is a
`(renewedQap, seQap)` pair. -/
def networkRenewalRate (agents : List (ℚ × ℚ)) : ℚ :=
  agents.foldl (fun acc a => acc * agentRR a.1 a.2) 1

theorem foldl_mul_map_prod {α : Type} (f : α → ℚ) :
    ∀ (l : List α) (c : ℚ),
      l.foldl (fun acc a => acc * f a) c = c * (l.map f).prod := by
  intro l
  induction l with
  | nil => intro c; simp
  | cons x xs ih =>
    intro c
    simp only [List.foldl_cons, List.map_cons, List.prod_cons, ih]
    ring

/-- Claim C2: the per-agent renewal ratio is `renewedQap / seQap` clamped to
`[0,1]`, with the edge rules ratio `= 1` when nothing was scheduled to expire
but renewal occurred, ratio `= 0` when scheduled-expire power is negative or
renewed power is zero; it always lies in `[0,1]`; and the day's recorded
network renewal rate is the product of all agents' individual ratios, not
their mean. -/
theorem renewal_ratio_clamped_and_rate_is_product (r s : ℚ)
    (agents : List (ℚ × ℚ)) :
    (0 ≤ agentRR r s ∧ agentRR r s ≤ 1) ∧
    (s = 0 → 0 < r → agentRR r s = 1) ∧
    (s < 0 ∨ r = 0 → agentRR r s = 0) ∧
    (0 < s → r ≠ 0 → agentRR r s = clip01 (r / s)) ∧
    networkRenewalRate agents =
      (agents.map fun a => agentRR a.1 a.2).prod := by
  refine ⟨⟨le_min (le_max_right _ _) zero_le_one, min_le_right _ _⟩,
    ?_, ?_, ?_, ?_⟩
  · intro hs hr
    rw [agentRR, if_pos ⟨hs, hr⟩]
    norm_num [clip01]
  · intro h
    have h1 : ¬(s = 0 ∧ 0 < r) := by
      rintro ⟨hs0, hr0⟩
      rcases h with hs | hr
      · exact absurd (hs0 ▸ hs) (lt_irrefl 0)
      · exact absurd (hr ▸ hr0) (lt_irrefl 0)
    rw [agentRR, if_neg h1, if_pos h]
    norm_num [clip01]
  · intro hs hr
    have h1 : ¬(s = 0 ∧ 0 < r) := by
      rintro ⟨hs0, _⟩
      exact absurd (hs0 ▸ hs) (lt_irrefl 0)
    have h2 : ¬(s < 0 ∨ r = 0) := by
      push_neg
      exact ⟨not_lt.mp fun hlt => absurd (hlt.trans hs) (lt_irrefl s), hr⟩
    rw [agentRR, if_neg h1, if_neg h2]
  · rw [networkRenewalRate, foldl_mul_map_prod, one_mul]

theorem renewal_ratio_clamped_and_rate_is_product_witness :
    agentRR 5 0 = 1 ∧
    agentRR 5 (-2) = 0 ∧
    agentRR 5 2 = clip01 (5 / 2) ∧
    (0 ≤ agentRR 5 2 ∧ agentRR 5 2 ≤ 1) ∧
    networkRenewalRate [(5, 2), (0, 3)] =
      (([(5, 2), (0, 3)] : List (ℚ × ℚ)).map
        fun a => agentRR a.1 a.2).prod :=
  ⟨(renewal_ratio_clamped_and_rate_is_product 5 0 []).2.1 rfl (by norm_num),
   (renewal_ratio_clamped_and_rate_is_product 5 (-2) []).2.2.1
     (Or.inl (by norm_num)),
   (renewal_ratio_clamped_and_rate_is_product 5 2 []).2.2.2.1 (by norm_num)
     (by norm_num),
   (renewal_ratio_clamped_and_rate_is_product 5 2 []).1,
   (renewal_ratio_clamped_and_rate_is_product 5 2 [(5, 2), (0, 3)]).2.2.2.2⟩

/-! ### Renewal pledge clamp (`FilecoinModel._update_sched_expire_pledge`,
lines 761-777)

```
original_pledge_for_renew = original_pledge * agent_rr
renews_locked = max(original_pledge_for_renew, renews_locked)
```
-/

/-- The pledge locked for an agent's renewals on a day:
`locking.compute_new_pledge_for_added_power`'s result (abstracted as
`renewsLockedComputed` — `locking.py` is a collaborator module outside the
embedded core) clamped from below by the original scheduled-to-release pledge
scaled by the agent's realized renewal ratio. -/
def renewsLockedClamped (originalPledge renewsLockedComputed renewedQap
    seQap : ℚ) : ℚ :=
  max (originalPledge * agentRR renewedQap seQap)
    renewsLockedComputed

/-- Claim C9: the pledge locked for a day's renewals is at least the original
pledge scheduled to be released that day scaled by the agent's realized
renewal ratio — renewal never releases less collateral than was originally
locked for the renewed portion. -/
theorem renew_pledge_at_least_scaled_original (originalPledge
    renewsLockedComputed renewedQap seQap : ℚ) :
    originalPledge * agentRR renewedQap seQap ≤
      renewsLockedClamped originalPledge renewsLockedComputed renewedQap
        seQap :=
  le_max_left _ _

/-! ### Agent power shares (`FilecoinModel._get_agent_power_proportion`,
lines 924-944)

```
agent_power_proportion = min(total_agent_qap/total_network_qap, 1.0)
...
agent_power_proportion_vec = agent_power_proportion_vec / sum(agent_power_proportion_vec)
```

Each raw proportion divides the agent's active QA power by the *recorded
network total* (`filecoin_df total_qa_power_eib`), clamps at `1.0`, and the
vector is then normalized by its own sum. -/

/-- The day's normalized power-share vector: `powers` lists each agent's
active QA power and `totalNetworkQap` is the recorded network total (same
units). -/
def agentPowerProportions (powers : List ℚ) (totalNetworkQap : ℚ) : List ℚ :=
  (powers.map fun a => min (a / totalNetworkQap) 1).map
    fun x => x / (powers.map fun a => min (a / totalNetworkQap) 1).sum

theorem sum_map_div (S : ℚ) :
    ∀ l : List ℚ, (l.map fun x => x / S).sum = l.sum / S := by
  intro l
  induction l with
  | nil => simp
  | cons x xs ih => simp [ih, add_div]

/-- Claim C7 (amended): each agent's share is `min(power / networkTotal, 1)`
normalized by the sum of these clamped values; for nonnegative powers, a
positive network total and a positive clamped sum, the shares sum to exactly
`1` and each lies in `[0,1]`; and they equal
`power / (sum of all agents' powers)` — the claim's formula — whenever in
addition no agent's power exceeds the recorded network total, so that no
clamp binds. -/
theorem power_shares_normalized (powers : List ℚ) (N x : ℚ)
    (hN : 0 < N) (hnn : ∀ a ∈ powers, 0 ≤ a)
    (hpos : 0 < (powers.map fun a => min (a / N) 1).sum)
    (hx : x ∈ agentPowerProportions powers N) :
    (agentPowerProportions powers N).sum = 1 ∧ (0 ≤ x ∧ x ≤ 1) ∧
    ((∀ a ∈ powers, a ≤ N) →
      agentPowerProportions powers N = powers.map fun a => a / powers.sum) := by
  have hprenn : ∀ p ∈ (powers.map fun a => min (a / N) 1), 0 ≤ p := by
    intro p hp
    rcases List.mem_map.mp hp with ⟨a, ha, rfl⟩
    exact le_min (div_nonneg (hnn a ha) hN.le) zero_le_one
  refine ⟨?_, ?_, ?_⟩
  · rw [agentPowerProportions, sum_map_div, div_self hpos.ne']
  · rcases List.mem_map.mp hx with ⟨p, hp, rfl⟩
    exact ⟨div_nonneg (hprenn p hp) hpos.le,
      (div_le_one hpos).mpr (List.single_le_sum hprenn p hp)⟩
  · intro hle
    have hpre : (powers.map fun a => min (a / N) 1) =
        powers.map fun a => a / N := by
      refine List.map_congr_left fun a ha => ?_
      exact min_eq_left ((div_le_one hN).mpr (hle a ha))
    rw [agentPowerProportions, hpre, sum_map_div, List.map_map]
    refine List.map_congr_left fun a _ => ?_
    show (a / N) / (powers.sum / N) = a / powers.sum
    rw [div_div_div_comm, div_self hN.ne', div_one]

theorem power_shares_normalized_witness :
    0 < (8 : ℚ) ∧ (∀ a ∈ ([3, 1] : List ℚ), 0 ≤ a) ∧
    0 < (([3, 1] : List ℚ).map fun a => min (a / 8) 1).sum ∧
    (3 / 4 : ℚ) ∈ agentPowerProportions [3, 1] 8 ∧
    ((agentPowerProportions [3, 1] 8).sum = 1 ∧
     (0 ≤ (3 / 4 : ℚ) ∧ (3 / 4 : ℚ) ≤ 1) ∧
     agentPowerProportions [3, 1] 8 =
       ([3, 1] : List ℚ).map fun a => a / ([3, 1] : List ℚ).sum) ∧
    (2 / 3 : ℚ) ∈ agentPowerProportions [2, 1/2] 1 ∧
    ((agentPowerProportions [2, 1/2] 1).sum = 1 ∧
     (0 ≤ (2 / 3 : ℚ) ∧ (2 / 3 : ℚ) ≤ 1)) :=
  ⟨by norm_num, by norm_num, by norm_num,
   by norm_num [agentPowerProportions],
   ⟨(power_shares_normalized [3, 1] 8 (3 / 4) (by norm_num) (by norm_num)
       (by norm_num) (by norm_num [agentPowerProportions])).1,
    (power_shares_normalized [3, 1] 8 (3 / 4) (by norm_num) (by norm_num)
       (by norm_num) (by norm_num [agentPowerProportions])).2.1,
    (power_shares_normalized [3, 1] 8 (3 / 4) (by norm_num) (by norm_num)
       (by norm_num) (by norm_num [agentPowerProportions])).2.2
      (by norm_num)⟩,
   by norm_num [agentPowerProportions],
   ⟨(power_shares_normalized [2, 1/2] 1 (2 / 3) (by norm_num) (by norm_num)
       (by norm_num) (by norm_num [agentPowerProportions])).1,
    (power_shares_normalized [2, 1/2] 1 (2 / 3) (by norm_num) (by norm_num)
       (by norm_num) (by norm_num [agentPowerProportions])).2.1⟩⟩

/-- Claim C7, counterexample: with a recorded network total of `1` and agent
active powers `[2, 1/2]`, the code's shares are `[2/3, 1/3]` (the first
agent's raw proportion `2/1` is clamped to `1` before normalizing), while the
claim's formula `power / (sum of agents' powers)` gives `[4/5, 1/5]`. -/
theorem power_shares_clamp_counterexample :
    agentPowerProportions [2, 1/2] 1 = [2/3, 1/3] ∧
    (([2, 1/2] : List ℚ).map fun a => a / ([2, 1/2] : List ℚ).sum) =
      [4/5, 1/5] ∧
    agentPowerProportions [2, 1/2] 1 ≠
      ([2, 1/2] : List ℚ).map fun a => a / ([2, 1/2] : List ℚ).sum := by
  refine ⟨?_, by norm_num, ?_⟩ <;> norm_num [agentPowerProportions]

/-! ### Deferred pledge-release scheduling
(`FilecoinModel._update_sched_expire_pledge`, lines 779-797)

```
agent.accounting_df.loc[day_idx, "onboard_pledge_FIL"] += onboards_locked
if day_idx + onboarded_qa_duration < len(self.filecoin_df):
    self.filecoin_df.loc[day_idx + onboarded_qa_duration, "scheduled_pledge_release"] += onboards_locked
    agent.accounting_df.loc[day_idx + onboarded_qa_duration, "onboard_scheduled_pledge_release_FIL"] += onboards_locked
    agent.accounting_df.loc[day_idx + onboarded_qa_duration, "scheduled_pledge_release"] += onboards_locked
agent.accounting_df.loc[day_idx, "renew_pledge_FIL"] += renews_locked
if day_idx + renewed_qa_duration < len(self.filecoin_df):
    ... (same three updates with renews_locked) ...
```
(the `update_filecoin_df=True` path of the running simulation). -/

/-- Add `amt` to entry `i` of a date-indexed column (a pandas
`df.loc[i, col] += amt`). -/
def addAt : List ℚ → ℕ → ℚ → List ℚ
  | [], _, _ => []
  | x :: xs, 0, amt => (x + amt) :: xs
  | x :: xs, n + 1, amt => x :: addAt xs n amt

/-- The ledgers touched by one agent's pass of
`_update_sched_expire_pledge`: the network `scheduled_pledge_release` column
of `filecoin_df` and the agent's accounting columns. -/
structure SchedPledgeState where
  netSchedRelease : List ℚ
  onboardPledge : List ℚ
  renewPledge : List ℚ
  onboardSchedRelease : List ℚ
  renewSchedRelease : List ℚ
  agentSchedRelease : List ℚ

/-- One agent's ledger updates for day `dayIdx`: lock `onboardsLocked` and
`renewsLocked` at `dayIdx`, and register each deferred release at
`dayIdx + duration` only when that index is inside the ledger horizon
(`len(self.filecoin_df)`, the length of the `scheduled_pledge_release`
column). -/
def recordDayPledge (s : SchedPledgeState) (dayIdx : ℕ)
    (onboardsLocked renewsLocked : ℚ) (onbDur renDur : ℕ) : SchedPledgeState :=
  let horizon := s.netSchedRelease.length
  let s1 := { s with onboardPledge := addAt s.onboardPledge dayIdx onboardsLocked }
  let s2 := if dayIdx + onbDur < horizon then
      { s1 with
        netSchedRelease := addAt s1.netSchedRelease (dayIdx + onbDur) onboardsLocked
        onboardSchedRelease := addAt s1.onboardSchedRelease (dayIdx + onbDur) onboardsLocked
        agentSchedRelease := addAt s1.agentSchedRelease (dayIdx + onbDur) onboardsLocked }
    else s1
  let s3 := { s2 with renewPledge := addAt s2.renewPledge dayIdx renewsLocked }
  if dayIdx + renDur < horizon then
    { s3 with
      netSchedRelease := addAt s3.netSchedRelease (dayIdx + renDur) renewsLocked
      renewSchedRelease := addAt s3.renewSchedRelease (dayIdx + renDur) renewsLocked
      agentSchedRelease := addAt s3.agentSchedRelease (dayIdx + renDur) renewsLocked }
  else s3

/-- Claim C3: each deferred pledge-release entry whose release index
`dayIdx + duration` falls at or beyond the ledger horizon is silently
dropped, independently of the other event: whether only the onboarding
release, only the renewal release, or both lie beyond the horizon, the
dropped entry changes neither the network `scheduled_pledge_release` column
nor any of the agent's scheduled-release columns, while the other event's
deferred entry (when inside the horizon) and the day's own pledge-lock
entries are recorded exactly as usual. -/
theorem deferred_release_dropped_beyond_horizon (s : SchedPledgeState)
    (dayIdx : ℕ) (onboardsLocked renewsLocked : ℚ) (onbDur renDur : ℕ) :
    (s.netSchedRelease.length ≤ dayIdx + onbDur →
      dayIdx + renDur < s.netSchedRelease.length →
      recordDayPledge s dayIdx onboardsLocked renewsLocked onbDur renDur =
        { s with
          onboardPledge := addAt s.onboardPledge dayIdx onboardsLocked
          renewPledge := addAt s.renewPledge dayIdx renewsLocked
          netSchedRelease :=
            addAt s.netSchedRelease (dayIdx + renDur) renewsLocked
          renewSchedRelease :=
            addAt s.renewSchedRelease (dayIdx + renDur) renewsLocked
          agentSchedRelease :=
            addAt s.agentSchedRelease (dayIdx + renDur) renewsLocked }) ∧
    (dayIdx + onbDur < s.netSchedRelease.length →
      s.netSchedRelease.length ≤ dayIdx + renDur →
      recordDayPledge s dayIdx onboardsLocked renewsLocked onbDur renDur =
        { s with
          onboardPledge := addAt s.onboardPledge dayIdx onboardsLocked
          renewPledge := addAt s.renewPledge dayIdx renewsLocked
          netSchedRelease :=
            addAt s.netSchedRelease (dayIdx + onbDur) onboardsLocked
          onboardSchedRelease :=
            addAt s.onboardSchedRelease (dayIdx + onbDur) onboardsLocked
          agentSchedRelease :=
            addAt s.agentSchedRelease (dayIdx + onbDur) onboardsLocked }) ∧
    (s.netSchedRelease.length ≤ dayIdx + onbDur →
      s.netSchedRelease.length ≤ dayIdx + renDur →
      recordDayPledge s dayIdx onboardsLocked renewsLocked onbDur renDur =
        { s with
          onboardPledge := addAt s.onboardPledge dayIdx onboardsLocked
          renewPledge := addAt s.renewPledge dayIdx renewsLocked }) := by
  refine ⟨fun h1 h2 => ?_, fun h1 h2 => ?_, fun h1 h2 => ?_⟩ <;>
    rw [recordDayPledge]
  · simp only [if_neg (not_lt.mpr h1), if_pos h2]
  · simp only [if_pos h1, if_neg (not_lt.mpr h2)]
  · simp only [if_neg (not_lt.mpr h1), if_neg (not_lt.mpr h2)]

theorem deferred_release_dropped_beyond_horizon_witness :
    (SchedPledgeState.netSchedRelease
        (SchedPledgeState.mk [0, 0] [0, 0] [0, 0] [0, 0] [0, 0]
          [0, 0])).length ≤ 1 + 5 ∧
    1 + 0 < (SchedPledgeState.netSchedRelease
        (SchedPledgeState.mk [0, 0] [0, 0] [0, 0] [0, 0] [0, 0]
          [0, 0])).length ∧
    recordDayPledge
        (SchedPledgeState.mk [0, 0] [0, 0] [0, 0] [0, 0] [0, 0] [0, 0])
        1 10 20 5 0 =
      { SchedPledgeState.mk [0, 0] [0, 0] [0, 0] [0, 0] [0, 0] [0, 0] with
        onboardPledge := addAt [0, 0] 1 10
        renewPledge := addAt [0, 0] 1 20
        netSchedRelease := addAt [0, 0] (1 + 0) 20
        renewSchedRelease := addAt [0, 0] (1 + 0) 20
        agentSchedRelease := addAt [0, 0] (1 + 0) 20 } ∧
    recordDayPledge
        (SchedPledgeState.mk [0, 0] [0, 0] [0, 0] [0, 0] [0, 0] [0, 0])
        1 10 20 0 9 =
      { SchedPledgeState.mk [0, 0] [0, 0] [0, 0] [0, 0] [0, 0] [0, 0] with
        onboardPledge := addAt [0, 0] 1 10
        renewPledge := addAt [0, 0] 1 20
        netSchedRelease := addAt [0, 0] (1 + 0) 10
        onboardSchedRelease := addAt [0, 0] (1 + 0) 10
        agentSchedRelease := addAt [0, 0] (1 + 0) 10 } ∧
    recordDayPledge
        (SchedPledgeState.mk [0, 0] [0, 0] [0, 0] [0, 0] [0, 0] [0, 0])
        1 10 20 5 9 =
      { SchedPledgeState.mk [0, 0] [0, 0] [0, 0] [0, 0] [0, 0] [0, 0] with
        onboardPledge := addAt [0, 0] 1 10
        renewPledge := addAt [0, 0] 1 20 } :=
  ⟨by norm_num, by norm_num,
   (deferred_release_dropped_beyond_horizon
       (SchedPledgeState.mk [0, 0] [0, 0] [0, 0] [0, 0] [0, 0] [0, 0])
       1 10 20 5 0).1 (by norm_num) (by norm_num),
   (deferred_release_dropped_beyond_horizon
       (SchedPledgeState.mk [0, 0] [0, 0] [0, 0] [0, 0] [0, 0] [0, 0])
       1 10 20 0 9).2.1 (by norm_num) (by norm_num),
   (deferred_release_dropped_beyond_horizon
       (SchedPledgeState.mk [0, 0] [0, 0] [0, 0] [0, 0] [0, 0] [0, 0])
       1 10 20 5 9).2.2 (by norm_num) (by norm_num)⟩

/-! ### Daily power totals (`FilecoinModel._compute_macro`, lines 627-628,
and `FilecoinModel._update_power_metrics`, lines 645-663)

```
total_rb_delta += (total_onboarded_rb_delta + total_renewed_rb_delta
                   - total_se_rb_delta - total_terminated_rb_delta)
...
self.filecoin_df.loc[day_idx, 'total_raw_power_eib'] =
    max(self.filecoin_df.loc[day_idx, 'day_network_rbp_pib'] / 1024.0
        + self.filecoin_df.loc[day_idx-1, 'total_raw_power_eib'], constants.MIN_VALUE)
```
The quality-adjusted class (line 663) uses the identical formula on the QA
columns, so one embedded function serves both power classes. -/

/-- The day's net power delta (PiB) aggregated over agents. -/
def dayNetworkDelta (onboarded renewed schedExpire terminated : ℚ) : ℚ :=
  onboarded + renewed - schedExpire - terminated

/-- The recorded running total (EiB) for the day: previous total plus the
day's net delta, floored at `MIN_VALUE`. -/
def totalPowerEib (prevTotalEib dayDeltaPib : ℚ) : ℚ :=
  max (dayDeltaPib / 1024 + prevTotalEib) MIN_VALUE

/-- Claim C4 (amended): the recorded total power for a day is
`max(previous total + (onboarded + renewed - expired - terminated)/1024,
MIN_VALUE)` for both power classes, so it always sits at or above the
strictly positive floor; it equals the unclamped sum on every day where that
sum is at least `MIN_VALUE`, and on every day where the sum falls below the
floor the recorded total is raised to `MIN_VALUE` instead. -/
theorem total_power_recurrence_clamped (prev onb ren se term : ℚ) :
    totalPowerEib prev (dayNetworkDelta onb ren se term) =
      max (prev + (onb + ren - se - term) / 1024) MIN_VALUE ∧
    0 < MIN_VALUE ∧
    MIN_VALUE ≤ totalPowerEib prev (dayNetworkDelta onb ren se term) ∧
    (MIN_VALUE ≤ prev + (onb + ren - se - term) / 1024 →
      totalPowerEib prev (dayNetworkDelta onb ren se term) =
        prev + (onb + ren - se - term) / 1024) ∧
    (prev + (onb + ren - se - term) / 1024 < MIN_VALUE →
      totalPowerEib prev (dayNetworkDelta onb ren se term) = MIN_VALUE) := by
  have harg : dayNetworkDelta onb ren se term / 1024 + prev =
      prev + (onb + ren - se - term) / 1024 := by
    rw [dayNetworkDelta]; ring
  rw [totalPowerEib, harg]
  refine ⟨rfl, by norm_num [MIN_VALUE], le_max_right _ _, ?_, ?_⟩
  · intro h
    rw [max_eq_left h]
  · intro h
    rw [max_eq_right h.le]

theorem total_power_recurrence_clamped_witness :
    MIN_VALUE ≤ (1 : ℚ) + ((4 : ℚ) + 3 - 2 - 1) / 1024 ∧
    totalPowerEib 1 (dayNetworkDelta 4 3 2 1) =
      1 + ((4 : ℚ) + 3 - 2 - 1) / 1024 ∧
    (0 : ℚ) + ((0 : ℚ) + 0 - 1024 - 0) / 1024 < MIN_VALUE ∧
    totalPowerEib 0 (dayNetworkDelta 0 0 1024 0) = MIN_VALUE ∧
    totalPowerEib 1 (dayNetworkDelta 4 3 2 1) =
      max ((1 : ℚ) + (4 + 3 - 2 - 1) / 1024) MIN_VALUE ∧
    0 < MIN_VALUE ∧
    MIN_VALUE ≤ totalPowerEib 1 (dayNetworkDelta 4 3 2 1) :=
  ⟨by norm_num [MIN_VALUE],
   (total_power_recurrence_clamped 1 4 3 2 1).2.2.2.1
     (by norm_num [MIN_VALUE]),
   by norm_num [MIN_VALUE],
   (total_power_recurrence_clamped 0 0 0 1024 0).2.2.2.2
     (by norm_num [MIN_VALUE]),
   (total_power_recurrence_clamped 1 4 3 2 1).1,
   (total_power_recurrence_clamped 1 4 3 2 1).2.1,
   (total_power_recurrence_clamped 1 4 3 2 1).2.2.1⟩

/-- Claim C4, counterexample: the claim asserts the recorded total equals the
previous total plus the day's delta even after clamping, but when the
unclamped sum falls below `MIN_VALUE` the recorded total is the floor
instead: with previous total `0` EiB and a day that only expires `1024` PiB,
the sum is `-1` EiB while the ledger records `MIN_VALUE = 1e-6`. -/
theorem total_power_clamp_counterexample :
    totalPowerEib 0 (dayNetworkDelta 0 0 1024 0) = MIN_VALUE ∧
    (0 : ℚ) + dayNetworkDelta 0 0 1024 0 / 1024 = -1 ∧
    totalPowerEib 0 (dayNetworkDelta 0 0 1024 0) ≠
      0 + dayNetworkDelta 0 0 1024 0 / 1024 := by
  norm_num [totalPowerEib, dayNetworkDelta, MIN_VALUE]

/-! ### Circulating supply and locked collateral
(`FilecoinModel._update_circulating_supply`, lines 803-904, seeded in
`FilecoinModel._fast_forward_to_simulation_start`, lines 567-602)

```
self.filecoin_df.loc[day_idx, "network_locked_pledge"] = prev_network_locked_pledge + pledge_delta
self.filecoin_df.loc[day_idx, "network_locked_reward"] = prev_network_locked_reward + reward_delta
self.filecoin_df.loc[day_idx, "network_locked"] = prev_network_locked + pledge_delta + reward_delta
if self.filecoin_df.loc[day_idx, "network_gas_burn"] == 0.0:
    self.filecoin_df["network_gas_burn"].iloc[day_idx] = (
        self.filecoin_df["network_gas_burn"].iloc[day_idx - 1] + self.daily_burnt_fil)
circ_supply = (disbursed_reserve + cum_network_reward + total_vest
               - network_locked - network_gas_burn - burn_from_terminations)
self.filecoin_df.loc[day_idx, "circ_supply"] = max(circ_supply, 0)
```
`pledge_delta` (summed over agents from `locking.compute_day_delta_pledge`)
and the two reward-lock terms (`locking.compute_day_locked_rewards`,
`locking.compute_day_reward_release`) are outputs of the collaborator module
`locking.py`, abstracted here as day inputs. -/

/-- Constant `disbursed_reserve`, fixed across time (line 552):
`17066618961773411890063046 * 10**-18`. -/
def disbursedReserve : ℚ :=
  17066618961773411890063046 / 10 ^ 18

/-- The supply-related fields of one `filecoin_df` day row. -/
structure SupplyRow where
  networkLockedPledge : ℚ
  networkLockedReward : ℚ
  networkLocked : ℚ
  networkGasBurn : ℚ
  circSupply : ℚ

/-- The day's external inputs to `_update_circulating_supply`. -/
structure SupplyDayInputs where
  cumNetworkReward : ℚ
  totalVest : ℚ
  burnFromTerminations : ℚ
  pledgeDelta : ℚ
  dayLockedRewards : ℚ
  dayRewardRelease : ℚ
  gasBurnSeeded : ℚ

/-- One day of `FilecoinModel._update_circulating_supply`. -/
def updateCirculatingSupply (prev : SupplyRow) (inp : SupplyDayInputs)
    (dailyBurntFil : ℚ) : SupplyRow :=
  let rewardDelta := inp.dayLockedRewards - inp.dayRewardRelease
  let networkLocked := prev.networkLocked + inp.pledgeDelta + rewardDelta
  let gas := if inp.gasBurnSeeded = 0 then prev.networkGasBurn + dailyBurntFil
    else inp.gasBurnSeeded
  { networkLockedPledge := prev.networkLockedPledge + inp.pledgeDelta
    networkLockedReward := prev.networkLockedReward + rewardDelta
    networkLocked := networkLocked
    networkGasBurn := gas
    circSupply := max (disbursedReserve + inp.cumNetworkReward + inp.totalVest
      - networkLocked - gas - inp.burnFromTerminations) 0 }

/-- The locked-collateral seeding at the simulation start
(`_fast_forward_to_simulation_start`, lines 570-573 and 599-602): half the
known locked FIL to each component. -/
def seedLockedRow (lockedFilZero gas circ : ℚ) : SupplyRow :=
  { networkLockedPledge := lockedFilZero / 2
    networkLockedReward := lockedFilZero / 2
    networkLocked := lockedFilZero
    networkGasBurn := gas
    circSupply := circ }

/-- The historical seeding used when `compute_cs_from_networkdatastart` is
`False` (lines 587-588): `network_locked` is copied from the historical
supply table while `network_locked_pledge` and `network_locked_reward` keep
their initialization value `0` (lines 558-559). -/
def histLockedRow (lockedFil gas circ : ℚ) : SupplyRow :=
  { networkLockedPledge := 0
    networkLockedReward := 0
    networkLocked := lockedFil
    networkGasBurn := gas
    circSupply := circ }

/-- Run the daily supply update over a list of day inputs. -/
def runSupply (start : SupplyRow) (days : List (SupplyDayInputs × ℚ)) :
    SupplyRow :=
  days.foldl (fun r d => updateCirculatingSupply r d.1 d.2) start

/-- The C6 decomposition invariant. -/
def lockedDecomposed (r : SupplyRow) : Prop :=
  r.networkLocked = r.networkLockedPledge + r.networkLockedReward

theorem updateCirculatingSupply_decomposed (prev : SupplyRow)
    (inp : SupplyDayInputs) (b : ℚ) (h : lockedDecomposed prev) :
    lockedDecomposed (updateCirculatingSupply prev inp b) := by
  rw [lockedDecomposed] at h ⊢
  rw [updateCirculatingSupply]
  dsimp only
  rw [h]
  ring

theorem runSupply_decomposed (days : List (SupplyDayInputs × ℚ)) :
    ∀ start : SupplyRow, lockedDecomposed start →
      lockedDecomposed (runSupply start days) := by
  induction days with
  | nil => intro start h; exact h
  | cons d ds ih =>
    intro start h
    exact ih _ (updateCirculatingSupply_decomposed start d.1 d.2 h)

/-- Claim C5: the circulating supply recorded by the daily supply update
equals `disbursed_reserve + cum_network_reward + total_vest - network_locked
- network_gas_burn - burn_from_terminations` for that day (the locked and
gas-burn values being the row's own updated fields), floored at zero, so the
recorded supply is never negative. -/
theorem circ_supply_formula_floored (prev : SupplyRow) (inp : SupplyDayInputs)
    (b : ℚ) :
    (updateCirculatingSupply prev inp b).circSupply =
      max (disbursedReserve + inp.cumNetworkReward + inp.totalVest
        - (updateCirculatingSupply prev inp b).networkLocked
        - (updateCirculatingSupply prev inp b).networkGasBurn
        - inp.burnFromTerminations) 0 ∧
    0 ≤ (updateCirculatingSupply prev inp b).circSupply :=
  ⟨rfl, le_max_right _ _⟩

/-- Claim C6 (amended): the daily supply update preserves the decomposition
`network_locked = network_locked_pledge + network_locked_reward`; the
half-and-half seeding at simulation start satisfies it; and hence every row
produced by iterating the daily update from that seed satisfies it.  (Rows
seeded directly from historical locked-FIL data in the
`compute_cs_from_networkdatastart=False` configuration are not covered — see
the counterexample.) -/
theorem locked_decomposition_invariant (prev : SupplyRow)
    (inp : SupplyDayInputs) (b lockedFilZero gas circ : ℚ)
    (days : List (SupplyDayInputs × ℚ)) (h : lockedDecomposed prev) :
    lockedDecomposed (updateCirculatingSupply prev inp b) ∧
    lockedDecomposed (seedLockedRow lockedFilZero gas circ) ∧
    lockedDecomposed (runSupply (seedLockedRow lockedFilZero gas circ) days) := by
  have hseed : lockedDecomposed (seedLockedRow lockedFilZero gas circ) := by
    rw [lockedDecomposed, seedLockedRow]
    ring
  exact ⟨updateCirculatingSupply_decomposed prev inp b h, hseed,
    runSupply_decomposed days _ hseed⟩

theorem locked_decomposition_invariant_witness :
    lockedDecomposed ⟨3, 4, 7, 0, 0⟩ ∧
    (lockedDecomposed
        (updateCirculatingSupply ⟨3, 4, 7, 0, 0⟩ ⟨1, 1, 1, 2, 5, 3, 0⟩ 1) ∧
     lockedDecomposed (seedLockedRow 10 0 0) ∧
     lockedDecomposed
        (runSupply (seedLockedRow 10 0 0) [(⟨1, 1, 1, 2, 5, 3, 0⟩, 1)])) :=
  ⟨by norm_num [lockedDecomposed],
   locked_decomposition_invariant ⟨3, 4, 7, 0, 0⟩ ⟨1, 1, 1, 2, 5, 3, 0⟩ 1
     10 0 0 [(⟨1, 1, 1, 2, 5, 3, 0⟩, 1)] (by norm_num [lockedDecomposed])⟩

/-- Claim C6, counterexample: in the `compute_cs_from_networkdatastart=False`
configuration the historical rows copy `network_locked` from the supply
table while both components stay at their initialization value `0`, so with
`100` FIL locked historically the ledger has
`network_locked = 100 ≠ 0 + 0 = network_locked_pledge + network_locked_reward`
at those indices. -/
theorem locked_decomposition_hist_counterexample :
    (histLockedRow 100 0 0).networkLocked ≠
      (histLockedRow 100 0 0).networkLockedPledge +
        (histLockedRow 100 0 0).networkLockedReward := by
  norm_num [histLockedRow]

/-! ### Pledge estimate for zero added power
(`FilecoinModel.estimate_pledge_for_qa_power`, lines 278-332)

```
if qa_power_pib == 0:
    # if no-onboards, then keep the pledge estimate as the previous day to keep the trajectory smooth
    pledge_estimate = self.filecoin_df.loc[prev_day_idx, 'day_pledge_per_QAP'] * (qa_power_pib / constants.SECTOR_SIZE)
else:
    pledge_estimate = locking.compute_new_pledge_for_added_power(...)
```
The non-zero branch calls the collaborator
`locking.compute_new_pledge_for_added_power` on the previous day's
econometrics; it is abstracted as the function parameter `recompute`, since
the claim concerns only the zero branch (and the spec calls the ratio
formula pluggable). -/

/-- Pledge estimate for onboarding `qaPowerPib` of QA power, given the
previous day's per-unit pledge rate `prevDayPledgePerQAP` and the
onboarding-ratio recomputation `recompute` used for nonzero power. -/
def estimatePledgeForQaPower (recompute : ℚ → ℚ)
    (prevDayPledgePerQAP qaPowerPib : ℚ) : ℚ :=
  if qaPowerPib = 0 then prevDayPledgePerQAP * (qaPowerPib / SECTOR_SIZE)
  else recompute qaPowerPib

/-- Claim C8: a pledge estimate requested for zero added QA power returns the
previous day's pledge rate scaled by zero — independently of whatever the
onboarding-ratio recomputation would return — keeping the per-unit-pledge
trajectory smooth rather than recomputing. -/
theorem pledge_estimate_zero_power (recompute : ℚ → ℚ)
    (prevDayPledgePerQAP : ℚ) :
    estimatePledgeForQaPower recompute prevDayPledgePerQAP 0 =
      prevDayPledgePerQAP * (0 / SECTOR_SIZE) := by
  rw [estimatePledgeForQaPower, if_pos rfl]

end AgentFil
